import Mathlib

/-!
Shallow embedding of the `db_backend` service (FastAPI backend storing PDF
files and question records, forwarding both to an external processing
service).  Pure Lean translations of:

* `src/app/utils/file_utils.py` — filename validation, question persistence;
* `src/app/api/question_routes.py` — question CRUD handlers;
* `src/app/api/pdf_routes.py` — PDF upload/get/delete handlers;
* `src/app/api/process_routes.py` — the `/process` handler and its ad hoc
  external-call helper `query_process_endpoint`.

Filesystem state is passed explicitly (the PDF directory as an association
list of filename/content pairs, the questions document as an inductive
`QuestionsDoc`); the external HTTP collaborator is an explicit oracle value
(`ExtOutcome` / `PreOutcome`) consumed when, and only when, the code under
translation performs the call.  Every handler returns its resulting state
together with the HTTP result and the number of external calls performed,
so that "no external call was made" and "state unchanged" are statable.
-/

namespace DbBackend

/-- A stored question record, as persisted by `question_routes.py`:
`id` (opaque identifier), `soru` (question text), `yordam`
(optional procedure, `None` allowed). From `app/models/schemas.py`. -/
structure QuestionRec where
  id : String
  soru : String
  yordam : Option String
deriving DecidableEq, Repr

/-- One result item of the external service response, as consumed by
`process_routes.py` (`result_item["question"|"answer"|"status"]`). -/
structure ResultItem where
  question : String
  answer : String
  status : String
deriving DecidableEq, Repr

/-- `ProcessResponse` of `app/models/schemas.py`: results plus count. -/
structure ProcessResponse where
  results : List ResultItem
  count : Nat
deriving DecidableEq, Repr

/-- `ProcessRequest` of `app/models/schemas.py`. -/
structure ProcessRequest where
  question_ids : List String
  pdf_name : String
deriving DecidableEq, Repr

/-- Outcome of a handler: either a value or an `HTTPException` with a
status code; `upstream` records the upstream status embedded in the
detail message of the 502 branch of `process_questions`. -/
inductive HResult (α : Type) where
  | ok (value : α)
  | httpError (code : Nat) (upstream : Option Nat)
deriving DecidableEq, Repr

/-- The backing `questions.json` document as seen by `load_questions`:
it may be missing, fail to decode as JSON, decode to a non-list value,
or decode to a list of records. -/
inductive QuestionsDoc where
  | missing
  | corrupt
  | nonList
  | list (qs : List QuestionRec)
deriving DecidableEq, Repr

/-- The PDF directory: an association list of filename/content pairs
(content modelled as a list of bytes). -/
abbrev PdfDir := List (String × List Nat)

/- ### String helpers mirroring the Python operations used by the code -/

/-- Character-level containment test for the pattern `".."`, mirroring
Python's `".." in s`. -/
def hasDotDotChars : List Char → Bool
  | '.' :: '.' :: _ => true
  | _ :: rest => hasDotDotChars rest
  | [] => false

/-- `".." in s` on strings. -/
def strHasDotDot (s : String) : Bool :=
  hasDotDotChars s.data

/-- `c in s` for a single character, mirroring Python substring test of a
one-character needle. -/
def containsChar (s : String) (c : Char) : Bool :=
  s.data.any (fun x => x = c)

/-- `s.lower().endswith(".pdf")`: ASCII lowering then suffix test. -/
def lowerEndsWithPdf (s : String) : Bool :=
  (".pdf".data).isSuffixOf ((s.data.map Char.toLower))

/-- `os.path.basename` on a POSIX system: the portion of the path after
the last `/` (the whole string when no `/` occurs). -/
def basename (s : String) : String :=
  ⟨(s.data.reverse.takeWhile (fun c => c ≠ '/')).reverse⟩

/- ### file_utils.py -/

/-- `file_utils.load_questions`: a missing file or a JSON decode failure
yields `[]`; a decoded value that is not a list yields `[]`; otherwise the
decoded list. -/
def load_questions : QuestionsDoc → List QuestionRec
  | .missing => []
  | .corrupt => []
  | .nonList => []
  | .list qs => qs

/-- `file_utils.validate_pdf_filename`: reject empty names and names whose
lowering does not end in `".pdf"` (status 400); then reduce to
`os.path.basename` and reject basenames containing `".."` or empty
basenames (status 400); otherwise return the basename. -/
def validate_pdf_filename (filename : String) : Except Nat String :=
  if filename = "" then .error 400
  else if ¬ lowerEndsWithPdf filename then .error 400
  else
    let original := basename filename
    if strHasDotDot original ∨ original = "" then .error 400
    else .ok original

/- ### PDF directory primitives (filesystem semantics) -/

/-- Look up a file's bytes in the PDF directory. -/
def pdfLookup (dir : PdfDir) (name : String) : Option (List Nat) :=
  (dir.find? (fun p => p.1 = name)).map (fun p => p.2)

/-- `os.path.exists` on a path inside the PDF directory. -/
def pdfExists (dir : PdfDir) (name : String) : Bool :=
  (pdfLookup dir name).isSome

/- ### question_routes.py handlers (over the loaded questions list) -/

/-- `question_routes.add_question`: append a record carrying the freshly
generated identifier (the `uuid.uuid4()` value is passed in as `newId`),
persist, and return the created record. -/
def add_question (questions : List QuestionRec) (newId soru : String)
    (yordam : Option String) : List QuestionRec × QuestionRec :=
  let nq : QuestionRec := ⟨newId, soru, yordam⟩
  (questions ++ [nq], nq)

/-- `question_routes.get_question`: linear scan, first record whose `id`
matches; `none` means HTTP 404. -/
def get_question (questions : List QuestionRec) (id : String) :
    Option QuestionRec :=
  questions.find? (fun q => q.id = id)

/-- `question_routes.update_question`: replace the first record whose `id`
matches with a record rebuilt from the path identifier and the new fields,
returning the new list and the updated record; `none` means HTTP 404. -/
def update_question (questions : List QuestionRec) (id soru : String)
    (yordam : Option String) : Option (List QuestionRec × QuestionRec) :=
  match questions with
  | [] => none
  | q :: rest =>
    if q.id = id then some (⟨id, soru, yordam⟩ :: rest, ⟨id, soru, yordam⟩)
    else (update_question rest id soru yordam).map
      (fun p => (q :: p.1, p.2))

/-- Result of `question_routes.delete_question`: the resulting list, the
HTTP result, and whether `save_questions` was invoked (a write to the
backing document occurred). -/
structure DeleteQOut where
  questions : List QuestionRec
  result : HResult String
  wrote : Bool
deriving DecidableEq, Repr

/-- `question_routes.delete_question`: filter out records with the given
identifier; when nothing was removed (lengths equal) answer 404 without
writing, otherwise persist the filtered list. -/
def delete_question (questions : List QuestionRec) (id : String) :
    DeleteQOut :=
  let updated := questions.filter (fun q => q.id ≠ id)
  if updated.length = questions.length then
    ⟨questions, .httpError 404 none, false⟩
  else
    ⟨updated, .ok id, true⟩

/- ### pdf_routes.py handlers -/

/-- Outcome the external preprocessing call can have, as observed by
`PDFProcessorClient.preprocess_pdf_async`: a network-level failure
(`httpx.RequestError`), or a delivered HTTP response with a status code
and a body; `body = some st` means the body decoded as JSON carrying
status field `st`, `body = none` means the body failed to decode. -/
inductive PreOutcome where
  | netError
  | httpResp (status : Nat) (body : Option String)
deriving DecidableEq, Repr

/-- Whether `preprocess_pdf_async` returns normally on this outcome:
`raise_for_status` passes only on 2xx, the body must decode, and pydantic
accepts only the literal statuses "completed" and "failed". Any other
outcome raises, which `upload_pdf` maps to HTTP 500. -/
def preprocess_ok : PreOutcome → Bool
  | .netError => false
  | .httpResp s body =>
    if 200 ≤ s ∧ s ≤ 299 then
      match body with
      | some st => st = "completed" ∨ st = "failed"
      | none => false
    else false

/-- Result of `pdf_routes.upload_pdf`: resulting PDF directory, HTTP
result (the filename on success), and number of external preprocessing
calls performed. -/
structure UploadOut where
  dir : PdfDir
  result : HResult String
  extCalls : Nat
deriving DecidableEq, Repr

/-- `pdf_routes.upload_pdf`: validate the filename, answer 409 when a
file of that (basename) name already exists, otherwise write the bytes to
disk and then forward them to the external preprocessing service; any
failure of that call yields HTTP 500 with the written file left on
disk. -/
def upload_pdf (dir : PdfDir) (filename : String) (content : List Nat)
    (ext : PreOutcome) : UploadOut :=
  match validate_pdf_filename filename with
  | .error c => ⟨dir, .httpError c none, 0⟩
  | .ok orig =>
    if pdfExists dir orig then ⟨dir, .httpError 409 none, 0⟩
    else
      let dir' := dir ++ [(orig, content)]
      if preprocess_ok ext then ⟨dir', .ok orig, 1⟩
      else ⟨dir', .httpError 500 none, 1⟩

/-- The path-traversal guard shared by `pdf_routes.get_pdf` and
`pdf_routes.delete_pdf`:
`".." in filename or "/" in filename or "\\" in filename`. -/
def route_traversal_check (filename : String) : Bool :=
  strHasDotDot filename ∨ containsChar filename '/' ∨
    containsChar filename '\\'

/-- `pdf_routes.get_pdf`: reject traversal names with 400 before any
filesystem access, then 404 when the file is absent, else serve its
bytes. -/
def get_pdf (dir : PdfDir) (filename : String) : HResult (List Nat) :=
  if route_traversal_check filename then .httpError 400 none
  else
    match pdfLookup dir filename with
    | none => .httpError 404 none
    | some c => .ok c

/-- Result of `pdf_routes.delete_pdf`: resulting directory and HTTP
result. -/
structure DeletePdfOut where
  dir : PdfDir
  result : HResult String
deriving DecidableEq, Repr

/-- `pdf_routes.delete_pdf`: reject traversal names with 400 before any
filesystem access, 404 when absent, otherwise remove the file. -/
def delete_pdf (dir : PdfDir) (filename : String) : DeletePdfOut :=
  if route_traversal_check filename then ⟨dir, .httpError 400 none⟩
  else if pdfExists dir filename then
    ⟨dir.filter (fun p => p.1 ≠ filename), .ok filename⟩
  else ⟨dir, .httpError 404 none⟩

/- ### process_routes.py -/

/-- Outcome the external `/process` call can have, as observed inside
`query_process_endpoint` once the request is issued: a network-level
failure (`httpx.RequestError`), or a delivered HTTP response with status
code and body; `body = some items` means the body decoded as JSON with a
well-formed `results` list, `body = none` means it failed to decode. -/
inductive ExtOutcome where
  | netError
  | httpResp (status : Nat) (body : Option (List ResultItem))
deriving DecidableEq, Repr

/-- What the Python call `await query_process_endpoint(...)` produces at
the call site in `process_questions`: a returned value (the decoded body,
or Python `None` when the response was 2xx but not 200, since the helper
then falls through `raise_for_status` and returns nothing), or one of the
exception classes the route distinguishes. -/
inductive PyOutcome where
  | ok (body : Option (List ResultItem))
  | fileNotFound
  | requestError
  | httpStatusError (status : Nat)
  | otherExc
deriving DecidableEq, Repr

/-- `process_routes.query_process_endpoint`: re-check that the local PDF
exists (raising `FileNotFoundError` before any network activity), then
issue exactly one POST; a 200 response has its body decoded (a decode
failure raises a non-httpx exception), a non-200 response goes through
`raise_for_status`, which raises `httpx.HTTPStatusError` for every
non-2xx status and returns normally (hence the helper returns `None`) for
a 2xx one.  The second component counts network calls performed. -/
def query_process_endpoint (pdfFileExists : Bool) (ext : ExtOutcome) :
    PyOutcome × Nat :=
  if pdfFileExists then
    match ext with
    | .netError => (.requestError, 1)
    | .httpResp s body =>
      if s = 200 then
        match body with
        | some items => (.ok (some items), 1)
        | none => (.otherExc, 1)
      else if 200 ≤ s ∧ s ≤ 299 then (.ok none, 1)
      else (.httpStatusError s, 1)
  else (.fileNotFound, 0)

/-- The dict comprehension
`questions_dict = {q["id"]: q for q in questions_data}` followed by
lookup: for duplicate identifiers the last occurrence wins. -/
def dictLookup (qs : List QuestionRec) (qid : String) :
    Option QuestionRec :=
  qs.reverse.find? (fun q => q.id = qid)

/-- The identifier-resolution loop of `process_questions`: walk the
requested identifiers in order, failing (HTTP 404) at the first one
absent from the dictionary, otherwise collecting the resolved records. -/
def resolve_ids (qs : List QuestionRec) :
    List String → Except Unit (List QuestionRec)
  | [] => .ok []
  | qid :: rest =>
    match dictLookup qs qid with
    | none => .error ()
    | some q => (resolve_ids qs rest).map (fun l => q :: l)

/-- The result-construction loop of `process_questions`: each item is fed
to the pydantic `ProcessResult` model, whose `status` field accepts only
the literals "answer_found" and "answer_notfound"; any other value raises
a validation error (mapped to HTTP 500). -/
def build_results : List ResultItem → Option (List ResultItem)
  | [] => some []
  | r :: rest =>
    if r.status = "answer_found" ∨ r.status = "answer_notfound" then
      (build_results rest).map (fun l => r :: l)
    else none

/-- Result of `process_routes.process_questions`: the question document
and PDF directory after the request (the handler performs no writes), the
HTTP result, and the number of external calls performed. -/
structure ProcOut where
  doc : QuestionsDoc
  dir : PdfDir
  result : HResult ProcessResponse
  extCalls : Nat
deriving DecidableEq, Repr

/-- `process_routes.process_questions`: validate the PDF name, 404 when
the local file is absent, resolve every requested question identifier
(404 at the first unknown one, before any external call), then delegate
to `query_process_endpoint` and translate its outcome: decoded results
are re-validated item by item (500 on an invalid status literal),
`FileNotFoundError` maps to 404, `httpx.RequestError` to 503,
`httpx.HTTPStatusError` to 502 carrying the upstream status, and any
other exception to 500. -/
def process_questions (doc : QuestionsDoc) (dir : PdfDir)
    (req : ProcessRequest) (ext : ExtOutcome) : ProcOut :=
  match validate_pdf_filename req.pdf_name with
  | .error c => ⟨doc, dir, .httpError c none, 0⟩
  | .ok name =>
    if pdfExists dir name then
      match resolve_ids (load_questions doc) req.question_ids with
      | .error _ => ⟨doc, dir, .httpError 404 none, 0⟩
      | .ok _ =>
        match query_process_endpoint (pdfExists dir name) ext with
        | (.ok (some items), n) =>
          match build_results items with
          | some rs => ⟨doc, dir, .ok ⟨rs, rs.length⟩, n⟩
          | none => ⟨doc, dir, .httpError 500 none, n⟩
        | (.ok none, n) => ⟨doc, dir, .httpError 500 none, n⟩
        | (.fileNotFound, n) => ⟨doc, dir, .httpError 404 none, n⟩
        | (.requestError, n) => ⟨doc, dir, .httpError 503 none, n⟩
        | (.httpStatusError s, n) => ⟨doc, dir, .httpError 502 (some s), n⟩
        | (.otherExc, n) => ⟨doc, dir, .httpError 500 none, n⟩
    else ⟨doc, dir, .httpError 404 none, 0⟩

/- ### Reachable question-store states (for the uniqueness invariant) -/

/-- Store states reachable from the empty store through the three mutating
handlers; the `create` step carries the freshness guarantee of
`uuid.uuid4()` as a side condition. -/
inductive Reachable : List QuestionRec → Prop where
  | empty : Reachable []
  | create {qs : List QuestionRec} (id soru : String)
      (yordam : Option String) : Reachable qs →
      id ∉ qs.map (fun q => q.id) →
      Reachable (add_question qs id soru yordam).1
  | update {qs qs' : List QuestionRec} {u : QuestionRec}
      (id soru : String) (yordam : Option String) : Reachable qs →
      update_question qs id soru yordam = some (qs', u) →
      Reachable qs'
  | delete {qs : List QuestionRec} (id : String) : Reachable qs →
      Reachable (delete_question qs id).questions

/-- `question_routes.list_questions`: load the document and answer with
the records and their count (record validation cannot fail on records of
the modelled shape). -/
def list_questions (doc : QuestionsDoc) : HResult (List QuestionRec × Nat) :=
  let qs := load_questions doc
  .ok (qs, qs.length)

/-- The failure condition named by the spec for the preprocessing call: a
network-level error or a non-2xx response. -/
def preprocess_fails_externally (ext : PreOutcome) : Prop :=
  ext = .netError ∨
    ∃ s body, ext = .httpResp s body ∧ (s < 200 ∨ 299 < s)

/- ### Helper lemmas -/

theorem dictLookup_eq_none {qs : List QuestionRec} {qid : String}
    (h : qid ∉ qs.map (fun q => q.id)) : dictLookup qs qid = none := by
  unfold dictLookup
  rw [List.find?_eq_none]
  intro q hq
  simp only [List.mem_reverse] at hq
  simp only [List.mem_map, not_exists, not_and] at h
  simpa using fun hEq => h q hq hEq

theorem dictLookup_isSome {qs : List QuestionRec} {qid : String}
    (h : qid ∈ qs.map (fun q => q.id)) :
    ∃ q, dictLookup qs qid = some q := by
  rw [← Option.isSome_iff_exists]
  unfold dictLookup
  rw [List.find?_isSome]
  simp only [List.mem_map] at h
  obtain ⟨q, hq, hEq⟩ := h
  exact ⟨q, by simpa [List.mem_reverse] using ⟨hq, hEq⟩⟩

theorem resolve_ids_error_of_absent {qs : List QuestionRec}
    {ids : List String} {qid : String} (hmem : qid ∈ ids)
    (h : dictLookup qs qid = none) : resolve_ids qs ids = .error () := by
  induction ids with
  | nil => cases hmem
  | cons a rest ih =>
    rcases List.mem_cons.mp hmem with rfl | hmem'
    · unfold resolve_ids
      rw [h]
    · unfold resolve_ids
      cases hda : dictLookup qs a with
      | none => rfl
      | some q => rw [ih hmem']; rfl

theorem resolve_ids_ok_of_present {qs : List QuestionRec}
    {ids : List String}
    (h : ∀ qid ∈ ids, qid ∈ qs.map (fun q => q.id)) :
    ∃ l, resolve_ids qs ids = .ok l := by
  induction ids with
  | nil => exact ⟨[], rfl⟩
  | cons a rest ih =>
    obtain ⟨q, hq⟩ := dictLookup_isSome (h a (List.mem_cons_self a rest))
    obtain ⟨l, hl⟩ := ih fun qid hqid => h qid (List.mem_cons_of_mem a hqid)
    refine ⟨q :: l, ?_⟩
    unfold resolve_ids
    rw [hq, hl]
    rfl

theorem build_results_eq_self {items : List ResultItem}
    (h : ∀ r ∈ items,
      r.status = "answer_found" ∨ r.status = "answer_notfound") :
    build_results items = some items := by
  induction items with
  | nil => rfl
  | cons r rest ih =>
    unfold build_results
    rw [if_pos (h r (List.mem_cons_self r rest))]
    rw [ih fun x hx => h x (List.mem_cons_of_mem r hx)]
    rfl

theorem find?_append_of_none {α : Type} {p : α → Bool} {l₁ : List α}
    (l₂ : List α) (h : l₁.find? p = none) :
    (l₁ ++ l₂).find? p = l₂.find? p := by
  rw [List.find?_append, h, Option.none_or]

theorem update_question_shape {qs qs' : List QuestionRec}
    {u : QuestionRec} {id soru : String} {yordam : Option String}
    (h : update_question qs id soru yordam = some (qs', u)) :
    u = ⟨id, soru, yordam⟩ ∧
      qs'.map (fun q => q.id) = qs.map (fun q => q.id) := by
  induction qs generalizing qs' u with
  | nil => cases h
  | cons q rest ih =>
    unfold update_question at h
    by_cases hq : q.id = id
    · rw [if_pos hq] at h
      simp only [Option.some.injEq, Prod.mk.injEq] at h
      obtain ⟨h1, h2⟩ := h
      subst h1
      subst h2
      exact ⟨rfl, by simp [hq]⟩
    · rw [if_neg hq] at h
      cases hrec : update_question rest id soru yordam with
      | none => rw [hrec] at h; cases h
      | some p =>
        rw [hrec] at h
        obtain ⟨l, u'⟩ := p
        simp only [Option.map_some', Option.some.injEq, Prod.mk.injEq] at h
        obtain ⟨h1, h2⟩ := h
        subst h1
        subst h2
        obtain ⟨hu, hmap⟩ := ih hrec
        exact ⟨hu, by simp [hmap]⟩

theorem get_question_after_update {qs qs' : List QuestionRec}
    {u : QuestionRec} {id soru : String} {yordam : Option String}
    (h : update_question qs id soru yordam = some (qs', u)) :
    get_question qs' id = some ⟨id, soru, yordam⟩ := by
  induction qs generalizing qs' u with
  | nil => cases h
  | cons q rest ih =>
    unfold update_question at h
    by_cases hq : q.id = id
    · rw [if_pos hq] at h
      simp only [Option.some.injEq, Prod.mk.injEq] at h
      obtain ⟨h1, h2⟩ := h
      subst h1
      simp [get_question, List.find?]
    · rw [if_neg hq] at h
      cases hrec : update_question rest id soru yordam with
      | none => rw [hrec] at h; cases h
      | some p =>
        rw [hrec] at h
        obtain ⟨l, u'⟩ := p
        simp only [Option.map_some', Option.some.injEq, Prod.mk.injEq] at h
        obtain ⟨h1, h2⟩ := h
        subst h1
        have := ih hrec
        simpa [get_question, List.find?, hq] using this

theorem delete_question_sublist (qs : List QuestionRec) (id : String) :
    (delete_question qs id).questions.Sublist qs := by
  unfold delete_question
  dsimp only
  split
  · exact List.Sublist.refl qs
  · exact List.filter_sublist qs

theorem query_calls_le_one (b : Bool) (ext : ExtOutcome) :
    (query_process_endpoint b ext).2 ≤ 1 := by
  unfold query_process_endpoint
  cases b with
  | false => simp
  | true =>
    cases ext with
    | netError => simp
    | httpResp s body =>
      cases body <;> dsimp only <;> split_ifs <;> simp

theorem preprocess_ok_eq_false {ext : PreOutcome}
    (h : preprocess_fails_externally ext) : preprocess_ok ext = false := by
  rcases h with rfl | ⟨s, body, rfl, hs⟩
  · rfl
  · unfold preprocess_ok
    dsimp only
    rw [if_neg (by omega : ¬ (200 ≤ s ∧ s ≤ 299))]

/- ### Claim theorems -/

/-- C9: every read of the question store treats a missing backing document
or one whose content fails to decode as JSON as an empty collection: the
read returns the empty list and the request succeeds. -/
theorem C9_bad_doc_reads_empty (doc : QuestionsDoc)
    (h : doc = .missing ∨ doc = .corrupt) :
    load_questions doc = [] ∧ list_questions doc = .ok ([], 0) := by
  rcases h with rfl | rfl
  · exact ⟨rfl, rfl⟩
  · exact ⟨rfl, rfl⟩

/-- Witness for C9 at the missing document. -/
theorem C9_bad_doc_reads_empty_witness :
    load_questions .missing = [] ∧
      list_questions .missing = .ok ([], 0) :=
  C9_bad_doc_reads_empty .missing (Or.inl rfl)

/-- C8: deleting an identifier held by no stored question answers
NotFound (404), leaves the collection exactly as it was, and performs no
write to the backing document. -/
theorem C8_delete_absent_404 (questions : List QuestionRec) (id : String)
    (h : ∀ q ∈ questions, q.id ≠ id) :
    delete_question questions id =
      ⟨questions, .httpError 404 none, false⟩ := by
  unfold delete_question
  have hf : questions.filter (fun q => q.id ≠ id) = questions := by
    rw [List.filter_eq_self]
    intro a ha
    simpa using h a ha
  dsimp only
  rw [hf]
  simp

/-- Witness for C8 on a one-element store and an absent identifier. -/
theorem C8_delete_absent_404_witness :
    delete_question [⟨"a", "s", none⟩] "b" =
      ⟨[⟨"a", "s", none⟩], .httpError 404 none, false⟩ :=
  C8_delete_absent_404 [⟨"a", "s", none⟩] "b" (by decide)

/-- C7: a create with a fresh identifier is immediately retrievable with
exactly the supplied text and procedure, and an update of a present
identifier yields (and makes retrievable) a record with the new fields
under the unchanged identifier. -/
theorem C7_create_update_get_roundtrip :
    (∀ (qs : List QuestionRec) (id soru : String) (yordam : Option String),
      id ∉ qs.map (fun q => q.id) →
      (add_question qs id soru yordam).2 = ⟨id, soru, yordam⟩ ∧
      get_question (add_question qs id soru yordam).1 id =
        some ⟨id, soru, yordam⟩) ∧
    (∀ (qs : List QuestionRec) (id soru : String) (yordam : Option String),
      id ∈ qs.map (fun q => q.id) →
      ∃ qs' : List QuestionRec,
        update_question qs id soru yordam =
          some (qs', ⟨id, soru, yordam⟩) ∧
        get_question qs' id = some ⟨id, soru, yordam⟩) := by
  constructor
  · intro qs id soru yordam hfresh
    refine ⟨rfl, ?_⟩
    unfold add_question get_question
    have hnone : qs.find? (fun q => q.id = id) = none := by
      rw [List.find?_eq_none]
      intro q hq
      simp only [List.mem_map, not_exists, not_and] at hfresh
      simpa using fun hEq => hfresh q hq hEq
    rw [find?_append_of_none _ hnone]
    simp [List.find?]
  · intro qs id soru yordam hpresent
    induction qs with
    | nil => simp at hpresent
    | cons q rest ih =>
      by_cases hq : q.id = id
      · refine ⟨⟨id, soru, yordam⟩ :: rest, ?_, ?_⟩
        · unfold update_question
          rw [if_pos hq]
        · simp [get_question, List.find?]
      · have hpresent' : id ∈ rest.map (fun q => q.id) := by
          simp only [List.map_cons, List.mem_cons] at hpresent
          rcases hpresent with h | h
          · exact absurd h.symm hq
          · exact h
        obtain ⟨qs', hup, hget⟩ := ih hpresent'
        refine ⟨q :: qs', ?_, ?_⟩
        · unfold update_question
          rw [if_neg hq, hup]
          rfl
        · simpa [get_question, List.find?, hq] using hget

/-- Witness for C7: a concrete create on the empty store and a concrete
update of the only record. -/
theorem C7_create_update_get_roundtrip_witness :
    ((add_question [] "a" "s" none).2 = ⟨"a", "s", none⟩ ∧
      get_question (add_question [] "a" "s" none).1 "a" =
        some ⟨"a", "s", none⟩) ∧
    (∃ qs' : List QuestionRec,
      update_question [⟨"a", "s", none⟩] "a" "t" (some "p") =
        some (qs', ⟨"a", "t", some "p"⟩) ∧
      get_question qs' "a" = some ⟨"a", "t", some "p"⟩) :=
  ⟨C7_create_update_get_roundtrip.1 [] "a" "s" none (by decide),
   C7_create_update_get_roundtrip.2 [⟨"a", "s", none⟩] "a" "t" (some "p")
     (by decide)⟩

/-- C10: from the empty store, every sequence of create (with a fresh
identifier), update, and delete operations keeps question identifiers
unique; moreover update never changes the identifier sequence and delete
keeps every record whose identifier differs from the given one. -/
theorem C10_store_id_uniqueness_invariant :
    (∀ qs : List QuestionRec, Reachable qs →
      (qs.map (fun q => q.id)).Nodup) ∧
    (∀ (qs qs' : List QuestionRec) (u : QuestionRec) (id soru : String)
        (yordam : Option String),
      update_question qs id soru yordam = some (qs', u) →
      qs'.map (fun q => q.id) = qs.map (fun q => q.id)) ∧
    (∀ (qs : List QuestionRec) (id : String) (q : QuestionRec),
      q ∈ qs → q.id ≠ id → q ∈ (delete_question qs id).questions) := by
  refine ⟨?_, ?_, ?_⟩
  · intro qs hreach
    induction hreach with
    | empty => simp
    | create id soru yordam hqs hfresh ih =>
      unfold add_question
      rw [List.map_append]
      rw [List.nodup_append]
      refine ⟨ih, by simp, ?_⟩
      simpa [List.disjoint_singleton] using hfresh
    | update id soru yordam hqs hup ih =>
      rw [(update_question_shape hup).2]
      exact ih
    | delete id hqs ih =>
      exact ih.sublist ((delete_question_sublist _ id).map _)
  · intro qs qs' u id soru yordam hup
    exact (update_question_shape hup).2
  · intro qs id q hmem hne
    unfold delete_question
    dsimp only
    split
    · exact hmem
    · rw [List.mem_filter]
      exact ⟨hmem, by simpa using hne⟩

/-- Witness for C10: the invariant at a concrete reachable one-element
store, a concrete update, and a concrete delete survivor. -/
theorem C10_store_id_uniqueness_invariant_witness :
    (((add_question [] "a" "s" none).1.map (fun q => q.id)).Nodup) ∧
    (([⟨"a", "t", none⟩] : List QuestionRec).map (fun q => q.id) =
      ([⟨"a", "s", none⟩] : List QuestionRec).map (fun q => q.id)) ∧
    (⟨"a", "s", none⟩ : QuestionRec) ∈
      (delete_question [⟨"a", "s", none⟩] "b").questions :=
  ⟨C10_store_id_uniqueness_invariant.1 _
      (Reachable.create "a" "s" none Reachable.empty (by decide)),
   C10_store_id_uniqueness_invariant.2.1 [⟨"a", "s", none⟩]
      [⟨"a", "t", none⟩] ⟨"a", "t", none⟩ "a" "t" none (by decide),
   C10_store_id_uniqueness_invariant.2.2 [⟨"a", "s", none⟩] "b"
      ⟨"a", "s", none⟩ (by decide) (by decide)⟩

/-- C5: uploading under a valid filename that already names a stored file
answers Conflict (409), leaves the PDF directory (hence the existing
file's bytes) unchanged, and performs no external call. -/
theorem C5_duplicate_upload_conflict (dir : PdfDir)
    (filename orig : String) (content : List Nat) (ext : PreOutcome)
    (hv : validate_pdf_filename filename = .ok orig)
    (hex : pdfExists dir orig = true) :
    upload_pdf dir filename content ext =
      ⟨dir, .httpError 409 none, 0⟩ := by
  unfold upload_pdf
  rw [hv]
  simp [hex]

/-- Witness for C5 on a concrete one-file directory. -/
theorem C5_duplicate_upload_conflict_witness :
    upload_pdf [("x.pdf", [1, 2])] "x.pdf" [9] .netError =
      ⟨[("x.pdf", [1, 2])], .httpError 409 none, 0⟩ :=
  C5_duplicate_upload_conflict [("x.pdf", [1, 2])] "x.pdf" "x.pdf" [9]
    .netError rfl (by decide)

/-- C6: a non-duplicate upload writes the bytes to disk before the
external preprocessing call; when that call fails at the network or HTTP
level the endpoint answers 500 with the file left on disk, so an identical
retry answers Conflict (409). -/
theorem C6_upload_not_atomic (dir : PdfDir) (filename orig : String)
    (content content' : List Nat) (ext ext' : PreOutcome)
    (hv : validate_pdf_filename filename = .ok orig)
    (hnew : pdfExists dir orig = false)
    (hfail : preprocess_fails_externally ext) :
    (upload_pdf dir filename content ext).result = .httpError 500 none ∧
    (upload_pdf dir filename content ext).extCalls = 1 ∧
    pdfLookup (upload_pdf dir filename content ext).dir orig =
      some content ∧
    (upload_pdf (upload_pdf dir filename content ext).dir filename
        content' ext').result = .httpError 409 none := by
  have hpo := preprocess_ok_eq_false hfail
  have hdir : (upload_pdf dir filename content ext).dir =
      dir ++ [(orig, content)] := by
    unfold upload_pdf
    rw [hv]
    simp [hnew, hpo]
  have hfind : dir.find? (fun p => p.1 = orig) = none := by
    unfold pdfExists pdfLookup at hnew
    simpa [Option.isSome_iff_exists] using hnew
  have hlook : pdfLookup (dir ++ [(orig, content)]) orig =
      some content := by
    unfold pdfLookup
    rw [find?_append_of_none _ hfind]
    simp [List.find?]
  refine ⟨?_, ?_, ?_, ?_⟩
  · unfold upload_pdf
    rw [hv]
    simp [hnew, hpo]
  · unfold upload_pdf
    rw [hv]
    simp [hnew, hpo]
  · rw [hdir]
    exact hlook
  · rw [hdir]
    unfold upload_pdf
    rw [hv]
    have : pdfExists (dir ++ [(orig, content)]) orig = true := by
      unfold pdfExists
      rw [hlook]
      rfl
    simp [this]

/-- Witness for C6: concrete upload into the empty directory with a
network failure of the preprocessing call, then a concrete retry. -/
theorem C6_upload_not_atomic_witness :
    (upload_pdf [] "x.pdf" [1] .netError).result = .httpError 500 none ∧
    (upload_pdf [] "x.pdf" [1] .netError).extCalls = 1 ∧
    pdfLookup (upload_pdf [] "x.pdf" [1] .netError).dir "x.pdf" =
      some [1] ∧
    (upload_pdf (upload_pdf [] "x.pdf" [1] .netError).dir "x.pdf" [2]
        .netError).result = .httpError 409 none :=
  C6_upload_not_atomic [] "x.pdf" "x.pdf" [1] [2] .netError .netError
    rfl (by decide) (Or.inl rfl)

/-- C3 counterexample: retrieving `x.txt` (non-empty, no traversal, wrong
extension) is answered 404 after a filesystem lookup, not InvalidInput
(400); and upload-path validation accepts `../secret.pdf` (which contains
both a parent-directory segment and a path separator) by reducing it to
its basename instead of rejecting it. -/
theorem C3_counterexample :
    get_pdf [] "x.txt" = .httpError 404 none ∧
    get_pdf [] "x.txt" ≠ .httpError 400 none ∧
    validate_pdf_filename "../secret.pdf" = .ok "secret.pdf" := by
  exact ⟨by decide, by decide, rfl⟩

/-- C3 as amended: the store path (`validate_pdf_filename`, used by
upload) rejects the empty name and names whose lowered form does not end
in ".pdf" with 400, then reduces the name to its basename — stripping
rather than rejecting separators and parent segments — and rejects only
basenames still containing ".."; a validation failure leaves the
directory untouched with no external call.  The retrieve and delete
routes reject names containing "..", "/" or "\\" with 400 independently
of the directory contents (delete leaving the directory unchanged), but
perform no emptiness or extension check. -/
theorem C3_filename_validation_amended :
    (∀ name : String, name = "" ∨ lowerEndsWithPdf name = false →
      validate_pdf_filename name = .error 400) ∧
    (∀ name orig : String, validate_pdf_filename name = .ok orig →
      orig = basename name ∧ strHasDotDot orig = false ∧
      lowerEndsWithPdf name = true ∧ name ≠ "") ∧
    (∀ (dir : PdfDir) (name : String),
      route_traversal_check name = true →
      get_pdf dir name = .httpError 400 none ∧
      delete_pdf dir name = ⟨dir, .httpError 400 none⟩) ∧
    (∀ (dir : PdfDir) (name : String) (content : List Nat)
        (ext : PreOutcome) (code : Nat),
      validate_pdf_filename name = .error code →
      upload_pdf dir name content ext = ⟨dir, .httpError code none, 0⟩) := by
  refine ⟨?_, ?_, ?_, ?_⟩
  · intro name h
    rcases h with rfl | h
    · rfl
    · unfold validate_pdf_filename
      by_cases hne : name = ""
      · rw [if_pos hne]
      · rw [if_neg hne, if_pos (by simp [h])]
  · intro name orig h
    unfold validate_pdf_filename at h
    by_cases hne : name = ""
    · rw [if_pos hne] at h
      cases h
    · rw [if_neg hne] at h
      by_cases hpdf : lowerEndsWithPdf name
      · rw [if_neg (by simpa using hpdf)] at h
        by_cases hbad : strHasDotDot (basename name) ∨ basename name = ""
        · rw [if_pos hbad] at h
          cases h
        · rw [if_neg hbad] at h
          obtain rfl : basename name = orig := by
            simpa using h
          push_neg at hbad
          exact ⟨rfl, by simpa using hbad.1, by simpa using hpdf, hne⟩
      · rw [if_pos (by simpa using hpdf)] at h
        cases h
  · intro dir name h
    constructor
    · unfold get_pdf
      rw [if_pos (by simpa using h)]
    · unfold delete_pdf
      rw [if_pos (by simpa using h)]
  · intro dir name content ext code h
    unfold upload_pdf
    rw [h]

/-- Witness for C3's amended statement at concrete names. -/
theorem C3_filename_validation_amended_witness :
    validate_pdf_filename "x.txt" = .error 400 ∧
    ("a.pdf" = basename "../a.pdf" ∧ strHasDotDot "a.pdf" = false ∧
      lowerEndsWithPdf "../a.pdf" = true ∧ "../a.pdf" ≠ "") ∧
    (get_pdf [] "../a.pdf" = .httpError 400 none ∧
      delete_pdf [] "../a.pdf" = ⟨[], .httpError 400 none⟩) ∧
    upload_pdf [] "x.txt" [1] .netError = ⟨[], .httpError 400 none, 0⟩ :=
  ⟨C3_filename_validation_amended.1 "x.txt" (Or.inr (by decide)),
   C3_filename_validation_amended.2.1 "../a.pdf" "a.pdf" rfl,
   C3_filename_validation_amended.2.2.1 [] "../a.pdf" (by decide),
   C3_filename_validation_amended.2.2.2 [] "x.txt" [1] .netError 400 rfl⟩

/-- C1 counterexample: a request whose PDF name fails filename validation
and whose (sole) question identifier is absent from the store is answered
400, not NotFound (404); the claim's universal quantification over every
request therefore fails. -/
theorem C1_counterexample :
    (process_questions (.list []) [] ⟨["q1"], "bad.txt"⟩
        .netError).result = .httpError 400 none ∧
    (process_questions (.list []) [] ⟨["q1"], "bad.txt"⟩
        .netError).result ≠ .httpError 404 none ∧
    "q1" ∉ (load_questions (.list [])).map (fun q => q.id) := by
  exact ⟨by decide, by decide, by decide⟩

/-- C1 as amended: for every `/process` request whose PDF name passes
filename validation, if any requested question identifier is absent from
the stored collection the endpoint answers NotFound (404), no external
call is made, and both the question document and the PDF directory are
unchanged (identifier validation runs to rejection before any external
call). -/
theorem C1_invalid_id_no_external_call_amended (doc : QuestionsDoc)
    (dir : PdfDir) (req : ProcessRequest) (ext : ExtOutcome)
    (orig qid : String)
    (hv : validate_pdf_filename req.pdf_name = .ok orig)
    (hmem : qid ∈ req.question_ids)
    (habs : qid ∉ (load_questions doc).map (fun q => q.id)) :
    (process_questions doc dir req ext).result = .httpError 404 none ∧
    (process_questions doc dir req ext).extCalls = 0 ∧
    (process_questions doc dir req ext).doc = doc ∧
    (process_questions doc dir req ext).dir = dir := by
  have hres : resolve_ids (load_questions doc) req.question_ids =
      .error () :=
    resolve_ids_error_of_absent hmem (dictLookup_eq_none habs)
  unfold process_questions
  rw [hv]
  by_cases hp : pdfExists dir orig
  · simp [hp, hres]
  · simp [hp]

/-- Witness for C1's amended statement: a store holding only "a", a
request also naming the absent "zzz". -/
theorem C1_invalid_id_no_external_call_amended_witness :
    (process_questions (.list [⟨"a", "s", none⟩]) [("x.pdf", [0])]
        ⟨["a", "zzz"], "x.pdf"⟩ .netError).result =
      .httpError 404 none ∧
    (process_questions (.list [⟨"a", "s", none⟩]) [("x.pdf", [0])]
        ⟨["a", "zzz"], "x.pdf"⟩ .netError).extCalls = 0 ∧
    (process_questions (.list [⟨"a", "s", none⟩]) [("x.pdf", [0])]
        ⟨["a", "zzz"], "x.pdf"⟩ .netError).doc = .list [⟨"a", "s", none⟩] ∧
    (process_questions (.list [⟨"a", "s", none⟩]) [("x.pdf", [0])]
        ⟨["a", "zzz"], "x.pdf"⟩ .netError).dir = [("x.pdf", [0])] :=
  C1_invalid_id_no_external_call_amended (.list [⟨"a", "s", none⟩])
    [("x.pdf", [0])] ⟨["a", "zzz"], "x.pdf"⟩ .netError "x.pdf" "zzz"
    rfl (by decide) (by decide)

/-- C2 counterexample: with one stored question, one requested (valid)
identifier, an existing PDF, and a well-formed external 200 response
carrying two result items, the endpoint returns two results — the results
list length tracks the external response, not the number of requested
identifiers. -/
theorem C2_counterexample :
    (process_questions (.list [⟨"a", "s", none⟩]) [("x.pdf", [0])]
        ⟨["a"], "x.pdf"⟩
        (.httpResp 200 (some [⟨"q", "ans", "answer_found"⟩,
          ⟨"q2", "ans2", "answer_found"⟩]))).result =
      .ok ⟨[⟨"q", "ans", "answer_found"⟩, ⟨"q2", "ans2", "answer_found"⟩],
        2⟩ ∧
    (2 : Nat) ≠ (["a"] : List String).length := by
  exact ⟨by decide, by decide⟩

/-- C2 as amended: when the PDF name validates, the file exists, every
requested identifier resolves, and the external service answers 200 with
a decodable body whose result items all carry a legal status literal, the
endpoint returns exactly the external response's results — same elements,
same order, length that of the external results list — with count equal
to that length, after exactly one external call. -/
theorem C2_results_mirror_external_amended (doc : QuestionsDoc)
    (dir : PdfDir) (req : ProcessRequest) (orig : String)
    (items : List ResultItem)
    (hv : validate_pdf_filename req.pdf_name = .ok orig)
    (hp : pdfExists dir orig = true)
    (hall : ∀ qid ∈ req.question_ids,
      qid ∈ (load_questions doc).map (fun q => q.id))
    (hstat : ∀ r ∈ items,
      r.status = "answer_found" ∨ r.status = "answer_notfound") :
    (process_questions doc dir req (.httpResp 200 (some items))).result =
      .ok ⟨items, items.length⟩ ∧
    (process_questions doc dir req
        (.httpResp 200 (some items))).extCalls = 1 := by
  obtain ⟨l, hl⟩ := resolve_ids_ok_of_present hall
  have hbuild := build_results_eq_self hstat
  unfold process_questions
  rw [hv]
  simp [hp, hl, query_process_endpoint, hbuild]

/-- Witness for C2's amended statement on a concrete store, directory,
request and external response. -/
theorem C2_results_mirror_external_amended_witness :
    (process_questions (.list [⟨"a", "s", none⟩]) [("x.pdf", [0])]
        ⟨["a"], "x.pdf"⟩
        (.httpResp 200 (some [⟨"q", "ans", "answer_found"⟩]))).result =
      .ok ⟨[⟨"q", "ans", "answer_found"⟩],
        ([⟨"q", "ans", "answer_found"⟩] : List ResultItem).length⟩ ∧
    (process_questions (.list [⟨"a", "s", none⟩]) [("x.pdf", [0])]
        ⟨["a"], "x.pdf"⟩
        (.httpResp 200
          (some [⟨"q", "ans", "answer_found"⟩]))).extCalls = 1 :=
  C2_results_mirror_external_amended (.list [⟨"a", "s", none⟩])
    [("x.pdf", [0])] ⟨["a"], "x.pdf"⟩ "x.pdf"
    [⟨"q", "ans", "answer_found"⟩] rfl (by decide) (by decide) (by decide)

/-- C4 counterexample: a request whose question identifiers all resolve
(vacuously: none are requested) but whose PDF name fails filename
validation is answered 400 by the validation step at the top of the
handler, not the claimed NotFound (404) for the missing local file; the
claim as frozen, quantifying over every such request, is false. -/
theorem C4_counterexample :
    (process_questions (.list []) [] ⟨[], "x.txt"⟩ .netError).result =
      .httpError 400 none ∧
    (process_questions (.list []) [] ⟨[], "x.txt"⟩ .netError).result ≠
      .httpError 404 none ∧
    (∀ qid ∈ ([] : List String),
      qid ∈ (load_questions (.list [])).map (fun q => q.id)) ∧
    pdfExists [] "x.txt" = false := by
  exact ⟨by decide, by decide, by simp, by decide⟩

/-- C4 as amended: with a validated PDF name, (a) a missing local file is
answered
404 with no external call; with the file present and every identifier
resolving, (b) a network-level failure is answered 503, (c) a non-2xx
upstream response is answered 502 carrying the upstream status, and (d) a
200 response whose body fails to decode is answered 500 — each after
exactly one external call; and (e) no execution performs more than one
external call. -/
theorem C4_process_failure_modes :
    (∀ (doc : QuestionsDoc) (dir : PdfDir) (req : ProcessRequest)
        (ext : ExtOutcome) (orig : String),
      validate_pdf_filename req.pdf_name = .ok orig →
      pdfExists dir orig = false →
      (process_questions doc dir req ext).result = .httpError 404 none ∧
      (process_questions doc dir req ext).extCalls = 0) ∧
    (∀ (doc : QuestionsDoc) (dir : PdfDir) (req : ProcessRequest)
        (orig : String),
      validate_pdf_filename req.pdf_name = .ok orig →
      pdfExists dir orig = true →
      (∀ qid ∈ req.question_ids,
        qid ∈ (load_questions doc).map (fun q => q.id)) →
      (process_questions doc dir req .netError).result =
        .httpError 503 none ∧
      (process_questions doc dir req .netError).extCalls = 1) ∧
    (∀ (doc : QuestionsDoc) (dir : PdfDir) (req : ProcessRequest)
        (orig : String) (s : Nat) (body : Option (List ResultItem)),
      validate_pdf_filename req.pdf_name = .ok orig →
      pdfExists dir orig = true →
      (∀ qid ∈ req.question_ids,
        qid ∈ (load_questions doc).map (fun q => q.id)) →
      (s < 200 ∨ 299 < s) →
      (process_questions doc dir req (.httpResp s body)).result =
        .httpError 502 (some s) ∧
      (process_questions doc dir req (.httpResp s body)).extCalls = 1) ∧
    (∀ (doc : QuestionsDoc) (dir : PdfDir) (req : ProcessRequest)
        (orig : String),
      validate_pdf_filename req.pdf_name = .ok orig →
      pdfExists dir orig = true →
      (∀ qid ∈ req.question_ids,
        qid ∈ (load_questions doc).map (fun q => q.id)) →
      (process_questions doc dir req (.httpResp 200 none)).result =
        .httpError 500 none ∧
      (process_questions doc dir req
        (.httpResp 200 none)).extCalls = 1) ∧
    (∀ (doc : QuestionsDoc) (dir : PdfDir) (req : ProcessRequest)
        (ext : ExtOutcome),
      (process_questions doc dir req ext).extCalls ≤ 1) := by
  refine ⟨?_, ?_, ?_, ?_, ?_⟩
  · intro doc dir req ext orig hv hp
    unfold process_questions
    rw [hv]
    simp [hp]
  · intro doc dir req orig hv hp hall
    obtain ⟨l, hl⟩ := resolve_ids_ok_of_present hall
    unfold process_questions
    rw [hv]
    simp [hp, hl, query_process_endpoint]
  · intro doc dir req orig s body hv hp hall hs
    obtain ⟨l, hl⟩ := resolve_ids_ok_of_present hall
    have h200 : ¬ (s = 200) := by omega
    have h2xx : ¬ (200 ≤ s ∧ s ≤ 299) := by omega
    unfold process_questions
    rw [hv]
    simp [hp, hl, query_process_endpoint, h200, h2xx]
  · intro doc dir req orig hv hp hall
    obtain ⟨l, hl⟩ := resolve_ids_ok_of_present hall
    unfold process_questions
    rw [hv]
    simp [hp, hl, query_process_endpoint]
  · intro doc dir req ext
    unfold process_questions
    split
    · simp
    · rename_i name heqv
      by_cases hp : pdfExists dir name
      · have hq := query_calls_le_one (pdfExists dir name) ext
        rw [if_pos hp]
        split
        · simp
        · rcases hqq : query_process_endpoint (pdfExists dir name) ext
            with ⟨po, n⟩
          rw [hqq] at hq
          cases po with
          | ok body =>
            cases body with
            | none => simp [hqq]; exact hq
            | some items =>
              cases hb : build_results items with
              | none => simp [hqq, hb]; exact hq
              | some rs => simp [hqq, hb]; exact hq
          | fileNotFound => simp [hqq]; exact hq
          | requestError => simp [hqq]; exact hq
          | httpStatusError s => simp [hqq]; exact hq
          | otherExc => simp [hqq]; exact hq
      · rw [if_neg hp]
        simp

/-- Witness for C4: each failure mode exercised at a concrete request
against a concrete store and directory. -/
theorem C4_process_failure_modes_witness :
    ((process_questions (.list []) [] ⟨[], "x.pdf"⟩ .netError).result =
        .httpError 404 none ∧
      (process_questions (.list []) [] ⟨[], "x.pdf"⟩
        .netError).extCalls = 0) ∧
    ((process_questions (.list []) [("x.pdf", [0])] ⟨[], "x.pdf"⟩
        .netError).result = .httpError 503 none ∧
      (process_questions (.list []) [("x.pdf", [0])] ⟨[], "x.pdf"⟩
        .netError).extCalls = 1) ∧
    ((process_questions (.list []) [("x.pdf", [0])] ⟨[], "x.pdf"⟩
        (.httpResp 500 none)).result = .httpError 502 (some 500) ∧
      (process_questions (.list []) [("x.pdf", [0])] ⟨[], "x.pdf"⟩
        (.httpResp 500 none)).extCalls = 1) ∧
    ((process_questions (.list []) [("x.pdf", [0])] ⟨[], "x.pdf"⟩
        (.httpResp 200 none)).result = .httpError 500 none ∧
      (process_questions (.list []) [("x.pdf", [0])] ⟨[], "x.pdf"⟩
        (.httpResp 200 none)).extCalls = 1) ∧
    (process_questions (.list []) [("x.pdf", [0])] ⟨[], "x.pdf"⟩
      .netError).extCalls ≤ 1 :=
  ⟨C4_process_failure_modes.1 (.list []) [] ⟨[], "x.pdf"⟩ .netError
      "x.pdf" rfl (by decide),
   C4_process_failure_modes.2.1 (.list []) [("x.pdf", [0])]
      ⟨[], "x.pdf"⟩ "x.pdf" rfl (by decide) (by decide),
   C4_process_failure_modes.2.2.1 (.list []) [("x.pdf", [0])]
      ⟨[], "x.pdf"⟩ "x.pdf" 500 none rfl (by decide) (by decide)
      (by decide),
   C4_process_failure_modes.2.2.2.1 (.list []) [("x.pdf", [0])]
      ⟨[], "x.pdf"⟩ "x.pdf" rfl (by decide) (by decide),
   C4_process_failure_modes.2.2.2.2 (.list []) [("x.pdf", [0])]
      ⟨[], "x.pdf"⟩ .netError⟩

end DbBackend
